import Mathlib

/-!
Shallow embedding of the `filetrack` library (HectorHW/filetrack).

The embedding mirrors the Rust sources:

* `src/multireader.rs`  — `Multireader`, a read/seek view over a sequence of
  seekable byte sources (modelled as in-memory cursors, the same model the
  repository's own tests use via `std::io::Cursor`);
* `src/inode_aware.rs`  — `InodeAwareReader`, which pairs the multireader with
  the inode of each source;
* `src/tracked_reader.rs` (plus the earlier iteration in `src/lib.rs`) —
  `TrackedReader`, which persists an `(inode, offset)` record in a registry
  file.

Machine integers (`u64`, `usize`) are modelled as `Nat`: the Rust code never
relies on wrap-around for these quantities (offsets and sizes only grow by
byte counts).  Fallible operations return `Except`.  A source whose seek
syscalls fail (e.g. a FIFO opened as a file) is modelled by the `seekFails`
flag; this is the only I/O failure mode the claims need.
-/

namespace Filetrack

/-- Model of `std::io::SeekFrom`. -/
inductive SeekFrom where
  | start : Nat → SeekFrom
  | fromEnd : Int → SeekFrom
  | current : Int → SeekFrom
deriving DecidableEq, Repr

/-- Model of a seekable byte source (`std::io::Cursor<Vec<u8>>` /
`BufReader<File>` as far as the library observes it): its bytes, its current
position, and whether seek operations on it fail. -/
structure Cursor where
  data : List Nat
  pos : Nat
  seekFails : Bool := false
deriving DecidableEq, Repr

instance : Inhabited Cursor := ⟨⟨[], 0, false⟩⟩

/-- `Seek::seek` on a cursor.  Rust's `Cursor` accepts any non-negative target
position (possibly past the end) and errors on a negative one. -/
def Cursor.seek (c : Cursor) (p : SeekFrom) : Except Unit (Nat × Cursor) :=
  if c.seekFails then .error () else
  match p with
  | .start o => .ok (o, { c with pos := o })
  | .fromEnd d =>
    let n : Int := (c.data.length : Int) + d
    if n < 0 then .error () else .ok (n.toNat, { c with pos := n.toNat })
  | .current d =>
    let n : Int := (c.pos : Int) + d
    if n < 0 then .error () else .ok (n.toNat, { c with pos := n.toNat })

/-- `Read::read` with a buffer of length `n`: yields `min n (len - pos)` bytes
starting at `pos` (zero bytes when the position is at or past the end) and
advances the position by the number of bytes yielded. -/
def Cursor.read (c : Cursor) (n : Nat) : List Nat × Cursor :=
  let chunk := (c.data.drop c.pos).take n
  (chunk, { c with pos := c.pos + chunk.length })

/-- State of `Multireader` (`src/multireader.rs`): the underlying items, the
running total offsets of all items except the last (`offsets`), and the
global offset. -/
structure Multireader where
  items : List Cursor
  offsets : List Nat
  global_offset : Nat
deriving DecidableEq, Repr

/-- The loop body of `Multireader::get_current_item_index`: counts leading
entries of `offsets` that are `≤ global_offset`, stopping at the first larger
entry. -/
def countWhileLe (g : Nat) : List Nat → Nat
  | [] => 0
  | o :: rest => if o ≤ g then countWhileLe g rest + 1 else 0

/-- `Multireader::get_global_offset`. -/
def Multireader.get_global_offset (m : Multireader) : Nat :=
  m.global_offset

/-- `Multireader::get_current_item_index`. -/
def Multireader.get_current_item_index (m : Multireader) : Nat :=
  countWhileLe m.global_offset m.offsets

/-- `Multireader::get_local_offset`. -/
def Multireader.get_local_offset (m : Multireader) : Nat :=
  let item_index := m.get_current_item_index
  if item_index = 0 then m.global_offset
  else m.global_offset - m.offsets.getD (item_index - 1) 0

/-- `Multireader::len`. -/
def Multireader.len (m : Multireader) : Nat :=
  m.items.length

/-- `Multireader::get_bytes_before_current_item`. -/
def Multireader.get_bytes_before_current_item (m : Multireader) : Nat :=
  if m.get_current_item_index = 0 then 0
  else m.offsets.getD (m.get_current_item_index - 1) 0

/-- The spec's `cumulative[k]`: total bytes preceding item `k`.  In terms of
the code's `offsets` array this is `0` for `k = 0` and `offsets[k-1]`
otherwise. -/
def cumulativeAt (offs : List Nat) (k : Nat) : Nat :=
  if k = 0 then 0 else offs.getD (k - 1) 0

/-- One probe step of `get_sizes_fallible`: for each item, seek to the end to
learn its size, then seek back to the start.  Returns the sizes and the items
with their positions reset. -/
def probeSizes : List Cursor → Except Unit (List Nat × List Cursor)
  | [] => .ok ([], [])
  | c :: rest =>
    match c.seek (.fromEnd 0) with
    | .error e => .error e
    | .ok (size, c1) =>
      match c1.seek (.start 0) with
      | .error e => .error e
      | .ok (_, c2) =>
        match probeSizes rest with
        | .error e => .error e
        | .ok (sizes, rest2) => .ok (size :: sizes, c2 :: rest2)

/-- `get_sizes_fallible` (module function in `multireader.rs`): probes every
size and then pops the last one (the active item is not assumed stable). -/
def get_sizes_fallible (items : List Cursor) : Except Unit (List Nat × List Cursor) :=
  match probeSizes items with
  | .error e => .error e
  | .ok (sizes, items2) => .ok (sizes.dropLast, items2)

/-- `produce_total_offsets`: running prefix sums of the retained sizes. -/
def produce_total_offsets_from (total : Nat) : List Nat → List Nat
  | [] => []
  | s :: rest => (total + s) :: produce_total_offsets_from (total + s) rest

/-- `produce_total_offsets` (module function in `multireader.rs`). -/
def produce_total_offsets (sizes : List Nat) : List Nat :=
  produce_total_offsets_from 0 sizes

/-- `Multireader::new`.  The Rust code asserts that `items` is non-empty (a
contract violation otherwise); the assertion is modelled as an error. -/
def Multireader.new (items : List Cursor) : Except Unit Multireader :=
  if items.isEmpty then .error () else
  match get_sizes_fallible items with
  | .error e => .error e
  | .ok (sizes, items2) =>
    .ok { items := items2, offsets := produce_total_offsets sizes, global_offset := 0 }

/-- `Read::read for Multireader`: delegates to the current item (recomputed
from `global_offset`) and advances `global_offset` by the bytes read. -/
def Multireader.read (m : Multireader) (n : Nat) : List Nat × Multireader :=
  let idx := m.get_current_item_index
  let c := m.items.getD idx default
  let (chunk, c2) := c.read n
  (chunk, { m with items := m.items.set idx c2,
                   global_offset := m.global_offset + chunk.length })

/-- Sum of the byte lengths of all items; used only as fuel for
`read_to_end`. -/
def totalDataLen (m : Multireader) : Nat :=
  (m.items.map (fun c => c.data.length)).sum

/-- The `Read::read_to_end` loop: repeatedly read until a read returns zero
bytes.  The fuel is an upper bound on the number of non-empty reads. -/
def readToEndAux : Nat → Multireader → List Nat → List Nat × Multireader
  | 0, m, acc => (acc, m)
  | fuel + 1, m, acc =>
    let (chunk, m2) := m.read 8192
    if chunk.isEmpty then (acc, m2)
    else readToEndAux fuel m2 (acc ++ chunk)

/-- `Read::read_to_end` on the multireader. -/
def Multireader.read_to_end (m : Multireader) : List Nat × Multireader :=
  readToEndAux (totalDataLen m + 1) m []

/-- The repositioning loops of `Seek::seek for Multireader` in the
`SeekFrom::Start` arm: every item before the new current one is seeked to its
end, the current one to the new local offset, every later one to zero.
`i` is the absolute index of the head of the remaining list. -/
def repositionItems (idx loc : Nat) : Nat → List Cursor → Except Unit (List Cursor)
  | _, [] => .ok []
  | i, c :: rest =>
    let res := if i < idx then c.seek (.fromEnd 0)
               else if i = idx then c.seek (.start loc)
               else c.seek (.start 0)
    match res with
    | .error e => .error e
    | .ok (_, c2) =>
      match repositionItems idx loc (i + 1) rest with
      | .error e => .error e
      | .ok rest2 => .ok (c2 :: rest2)

/-- The `SeekFrom::Start` arm of `Seek::seek for Multireader`: store the
offset, recompute the current item index and local offset, reposition every
item, and return the new global offset. -/
def Multireader.seekStart (m : Multireader) (o : Nat) : Except Unit (Nat × Multireader) :=
  let m1 : Multireader := { m with global_offset := o }
  let idx := m1.get_current_item_index
  let loc := m1.get_local_offset
  match repositionItems idx loc 0 m1.items with
  | .error e => .error e
  | .ok items2 => .ok (o, { m1 with items := items2 })

/-- `Multireader::get_last_item_size`: remember the last item's position, seek
to its end to learn the size, and seek back. -/
def Multireader.get_last_item_size (m : Multireader) : Except Unit (Nat × Multireader) :=
  let c := m.items.getLast?.getD default
  let orig := c.pos
  match c.seek (.fromEnd 0) with
  | .error e => .error e
  | .ok (size, c1) =>
    match c1.seek (.start orig) with
    | .error e => .error e
    | .ok (_, c2) => .ok (size, { m with items := m.items.dropLast ++ [c2] })

/-- `Multireader::get_total_size`: bytes before the last item plus the last
item's size measured at call time. -/
def Multireader.get_total_size (m : Multireader) : Except Unit (Nat × Multireader) :=
  let pre_last := m.offsets.getLast?.getD 0
  match m.get_last_item_size with
  | .error e => .error e
  | .ok (last, m2) => .ok (pre_last + last, m2)

/-- `Seek::seek for Multireader`. -/
def Multireader.seek (m : Multireader) : SeekFrom → Except Unit (Nat × Multireader)
  | .start o => m.seekStart o
  | .fromEnd d =>
    match m.get_total_size with
    | .error e => .error e
    | .ok (total, m2) =>
      let real : Int := (total : Int) + d
      if real < 0 then .error () else m2.seekStart real.toNat
  | .current d =>
    let np : Int := (m.global_offset : Int) + d
    if np < 0 then .error () else m.seekStart np.toNat

/-- `Multireader::seek_current_item`: seek the current underlying reader and
recompute the global offset from the returned local offset. -/
def Multireader.seek_current_item (m : Multireader) (pos : SeekFrom) : Except Unit (Nat × Multireader) :=
  let idx := m.get_current_item_index
  let c := m.items.getD idx default
  match c.seek pos with
  | .error e => .error e
  | .ok (local_offset, c2) =>
    let m2 : Multireader := { m with items := m.items.set idx c2 }
    let m3 : Multireader := { m2 with global_offset := m2.get_bytes_before_current_item + local_offset }
    .ok (local_offset, m3)

/-- `Multireader::seek_to_item_start`. -/
def Multireader.seek_to_item_start (m : Multireader) (item_index : Nat) : Except Unit (Nat × Multireader) :=
  if item_index = 0 then m.seek (.start 0)
  else m.seek (.start (m.offsets.getD (item_index - 1) 0))

/-- `Multireader::seek_by_local_index`. -/
def Multireader.seek_by_local_index (m : Multireader) (item_index : Nat) (pos : SeekFrom) :
    Except Unit (Nat × Multireader) :=
  match m.seek_to_item_start item_index with
  | .error e => .error e
  | .ok (_, m2) => m2.seek_current_item pos

/-- Pure rendering of the total size (bytes before the last item plus the
last item's current length); equals what `get_total_size` measures. -/
def totalSizePure (m : Multireader) : Nat :=
  m.offsets.getLast?.getD 0 + (m.items.getLast?.getD default).data.length

/-- Structural invariant established by `Multireader::new` and preserved by
every operation: the item list is non-empty, `offsets` has one entry fewer
than `items` (prefix sums of all sizes but the last), the prefix sums are
monotone, and no source's seek fails. -/
def Multireader.WF (m : Multireader) : Prop :=
  m.items ≠ [] ∧
  m.items.length = m.offsets.length + 1 ∧
  m.offsets.Pairwise (· ≤ ·) ∧
  ∀ c ∈ m.items, c.seekFails = false

instance (m : Multireader) : Decidable m.WF := by
  unfold Multireader.WF; infer_instance

/-! ### `src/inode_aware.rs` -/

/-- `InodeAwareOffset`: the persistent position primitive. -/
structure InodeAwareOffset where
  inode : Nat
  offset : Nat
deriving DecidableEq, Repr

/-- `InodeAwareReader`: a multireader plus the inode of each source, recorded
at construction time. -/
structure InodeAwareReader where
  inner : Multireader
  inodes : List Nat
deriving DecidableEq, Repr

/-- The `find`-over-`enumerate` search of
`InodeAwareReader::get_item_index_by_inode`: index of the first occurrence. -/
def findIdxAux (inode : Nat) : List Nat → Option Nat
  | [] => none
  | i :: rest => if i = inode then some 0 else (findIdxAux inode rest).map (· + 1)

/-- `InodeAwareReader::get_item_index_by_inode`. -/
def InodeAwareReader.get_item_index_by_inode (r : InodeAwareReader) (inode : Nat) : Option Nat :=
  findIdxAux inode r.inodes

/-- `InodeAwareReader::get_current_inode`. -/
def InodeAwareReader.get_current_inode (r : InodeAwareReader) : Nat :=
  r.inodes.getD r.inner.get_current_item_index 0

/-- `InodeAwareReader::get_persistent_offset`. -/
def InodeAwareReader.get_persistent_offset (r : InodeAwareReader) : InodeAwareOffset :=
  { inode := r.get_current_inode, offset := r.inner.get_local_offset }

/-- `InodeAwareReader::seek_persistent`: a missing inode is a `NotFound`
error, otherwise the offset is translated to a seek inside the matching
item. -/
def InodeAwareReader.seek_persistent (r : InodeAwareReader) (offset : InodeAwareOffset) :
    Except Unit InodeAwareReader :=
  match r.get_item_index_by_inode offset.inode with
  | none => .error ()
  | some inode_index =>
    match r.inner.seek_by_local_index inode_index (.start offset.offset) with
    | .error e => .error e
    | .ok (_, inner2) => .ok { r with inner := inner2 }

/-- `InodeAwareReader::compare_offsets`. -/
def InodeAwareReader.compare_offsets (r : InodeAwareReader) (first second : InodeAwareOffset) :
    Option Ordering :=
  match r.get_item_index_by_inode first.inode, r.get_item_index_by_inode second.inode with
  | some first_index, some second_index =>
    if first_index = second_index then some (compare first.offset second.offset)
    else some (compare first_index second_index)
  | _, _ => none

/-! ### `src/tracked_reader.rs` and the registry -/

/-- `State` (`src/tracked_reader.rs`): the registry record. -/
structure State where
  offset : Nat
  inode : Nat
deriving DecidableEq, Repr

/-- Little-endian fixed-width encoding of a `u64`, as `bincode` writes it. -/
def u64ToLeBytes (n : Nat) : List Nat :=
  (List.range 8).map fun i => n / 256 ^ i % 256

/-- Value of a little-endian byte list. -/
def leBytesToNat (l : List Nat) : Nat :=
  l.foldr (fun b acc => acc * 256 + b) 0

/-- `bincode` encoding of a `State` record: the two `u64` fields in
declaration order, 16 bytes total. -/
def encodeState (s : State) : List Nat :=
  u64ToLeBytes s.offset ++ u64ToLeBytes s.inode

/-- `bincode` decoding of a `State` record from the start of a byte string:
fails when fewer than 16 bytes are available. -/
def decodeState (bytes : List Nat) : Option State :=
  if 16 ≤ bytes.length then
    some { offset := leBytesToNat (bytes.take 8),
           inode := leBytesToNat ((bytes.drop 8).take 8) }
  else none

/-- Model of the opened registry `File`: its content, its position, and
whether writes to it fail (e.g. a full disk). -/
structure RegFile where
  bytes : List Nat
  pos : Nat
  writeFails : Bool := false
deriving DecidableEq, Repr

/-- `State::persist`: rewind the registry file and overwrite the record in
place (trailing bytes of a previous larger record are retained). -/
def State.persist (s : State) (f : RegFile) : Except Unit RegFile :=
  if f.writeFails then .error ()
  else .ok { f with pos := 16, bytes := encodeState s ++ f.bytes.drop 16 }

/-- `TrackedReader` (`src/tracked_reader.rs`). -/
structure TrackedReader where
  inner : Multireader
  inodes : List Nat
  registry : RegFile
  already_freed : Bool
deriving DecidableEq, Repr

/-- `TrackedReader::get_persistent_state`. -/
def TrackedReader.get_persistent_state (r : TrackedReader) : State :=
  if r.inner.len = 1 then
    { offset := r.inner.get_global_offset, inode := r.inodes.getD 0 0 }
  else
    { offset := r.inner.get_local_offset,
      inode := r.inodes.getD r.inner.get_current_item_index 0 }

/-- `TrackedReader::persist`: write the current record through the registry
handle.  Only the registry field of the reader can change. -/
def TrackedReader.persist (r : TrackedReader) : Except Unit TrackedReader :=
  match (r.get_persistent_state).persist r.registry with
  | .error e => .error e
  | .ok reg => .ok { r with registry := reg }

/-- Observable outcome of `TrackedReader::close` for the calling process. -/
inductive CloseOutcome where
  | ok
  | errReturned
  | panicked
deriving DecidableEq, Repr

/-- `TrackedReader::close` together with the drop glue that runs when `self`
goes out of scope at the end of `close`.  On the success path `already_freed`
is set before `self` is dropped, so `Drop` does nothing.  On the failure path
the `?` operator returns the error *before* `already_freed` is set, so the
`Drop` impl sees `already_freed == false`, calls `persist().unwrap()`, and
panics when that second persist fails as well. -/
def TrackedReader.close (r : TrackedReader) : CloseOutcome × TrackedReader :=
  match r.persist with
  | .ok r1 => (.ok, { r1 with already_freed := true })
  | .error _ =>
    match r.persist with
    | .ok r1 => (.errReturned, r1)
    | .error _ => (.panicked, r)

/-- Error kinds of `TrackedReaderError`. -/
inductive TrackedReaderError where
  | io
  | persistence
  | rotationResolution
deriving DecidableEq, Repr

/-- A file on disk as the tracked reader sees it: inode, content, and whether
seeking in it fails. -/
structure SrcFile where
  ino : Nat
  content : List Nat
  seekFails : Bool := false
deriving Repr

/-- The slice of the filesystem `TrackedReader::new` interacts with: the live
log file at `path`, the rotated files at `path.k`, and the registry file. -/
structure FileSys where
  live : Option SrcFile
  rotated : Nat → Option SrcFile
  registry : Option (List Nat)
  registryWriteFails : Bool := false

/-- `maybe_read_state` (`src/tracked_reader.rs`): absent registry means no
state; an existing registry is opened read-only and decoded, a decoding
failure being a persistence error.  (An I/O failure opening an existing
registry would be an `io` error; the model's registry opens succeed.) -/
def maybe_read_state (fs : FileSys) : Except TrackedReaderError (Option State) :=
  match fs.registry with
  | none => .ok none
  | some bytes =>
    match decodeState bytes with
    | some s => .ok (some s)
    | none => .error .persistence

/-- `open_files` (`src/tracked_reader.rs`): with no saved state, open just the
live file.  With a saved state, open just the live file when its inode
matches; otherwise consult `path.1` only: a missing `path.1` is an I/O error
(from `std::fs::metadata`), a `path.1` with a different inode is a
rotation-resolution error, and a matching `path.1` is opened together with the
live file, oldest first. -/
def open_files (fs : FileSys) (state : Option State) :
    Except TrackedReaderError (List SrcFile × List Nat) :=
  match state with
  | none =>
    match fs.live with
    | none => .error .io
    | some f => .ok ([f], [f.ino])
  | some st =>
    match fs.live with
    | none => .error .io
    | some f =>
      if f.ino = st.inode then .ok ([f], [f.ino])
      else
        match fs.rotated 1 with
        | none => .error .io
        | some older =>
          if older.ino = st.inode then .ok ([older, f], [older.ino, f.ino])
          else .error .rotationResolution

/-- Opening a `SrcFile` yields a buffered reader, modelled as a cursor at
position zero. -/
def srcToCursor (f : SrcFile) : Cursor :=
  { data := f.content, pos := 0, seekFails := f.seekFails }

/-- A whole-reader seek to `Start o`, with the `io::Error` mapped into
`TrackedReaderError` as the `?` operator does. -/
def seekTracked (r : TrackedReader) (o : Nat) : Except TrackedReaderError TrackedReader :=
  match r.inner.seek (.start o) with
  | .error _ => .error .io
  | .ok (_, inner2) => .ok { r with inner := inner2 }

/-- The tail of `TrackedReader::new` starting right after the registry has
been opened (so the registry file exists from here on; the second component
is its on-disk content): construct the multireader (which probes source
sizes), then either seek to the saved offset or initialise the fresh
registry, and finally seek to the initial offset. -/
def finishNew (state_from_disk : Option State) (inodes : List Nat) (reg : RegFile)
    (mres : Except Unit Multireader) :
    Except TrackedReaderError TrackedReader × List Nat :=
  match mres with
  | .error _ => (.error .io, reg.bytes)
  | .ok inner =>
    let initial_offset := (state_from_disk.map State.offset).getD 0
    let r : TrackedReader :=
      { inner := inner, inodes := inodes, registry := reg, already_freed := false }
    match state_from_disk with
    | some st =>
      match seekTracked r st.offset with
      | .error e => (.error e, r.registry.bytes)
      | .ok r1 =>
        match seekTracked r1 initial_offset with
        | .error e => (.error e, r1.registry.bytes)
        | .ok r2 => (.ok r2, r2.registry.bytes)
    | none =>
      -- no previous state: initialise the freshly created registry content
      match r.persist with
      | .error _ => (.error .io, r.registry.bytes)
      | .ok r1 =>
        match seekTracked r1 initial_offset with
        | .error e => (.error e, r1.registry.bytes)
        | .ok r2 => (.ok r2, r2.registry.bytes)

/-- `TrackedReader::new`.  Returns the construction result together with the
final state of the registry file on disk (`none` = still absent).  Step
order follows the source: load the state, open the log files, *then* open the
registry read+write creating it if absent, then the `finishNew` tail. -/
def TrackedReader.new (fs : FileSys) :
    Except TrackedReaderError TrackedReader × Option (List Nat) :=
  match maybe_read_state fs with
  | .error e => (.error e, fs.registry)
  | .ok state_from_disk =>
    match open_files fs state_from_disk with
    | .error e => (.error e, fs.registry)
    | .ok (files, inodes) =>
      -- now that we know that open_files did not fail, the registry file is
      -- opened read+write and created if it was absent
      let reg : RegFile := { bytes := fs.registry.getD [], pos := 0,
                             writeFails := fs.registryWriteFails }
      let p := finishNew state_from_disk inodes reg (Multireader.new (files.map srcToCursor))
      (p.1, some p.2)

/-! ### Helper lemmas -/

theorem countWhileLe_le_length (g : Nat) : ∀ l : List Nat, countWhileLe g l ≤ l.length
  | [] => Nat.le_refl 0
  | o :: rest => by
    by_cases h : o ≤ g
    · simpa [countWhileLe, h] using Nat.succ_le_succ (countWhileLe_le_length g rest)
    · simp [countWhileLe, h]

theorem getD_le_of_lt_countWhileLe (g : Nat) :
    ∀ (l : List Nat) (j : Nat), j < countWhileLe g l → l.getD j 0 ≤ g
  | [], j, h => by simp [countWhileLe] at h
  | o :: rest, j, h => by
    by_cases ho : o ≤ g
    · cases j with
      | zero => simpa using ho
      | succ j =>
        simp only [countWhileLe, ho, if_true] at h
        exact getD_le_of_lt_countWhileLe g rest j (Nat.lt_of_succ_lt_succ h)
    · simp [countWhileLe, ho] at h

theorem lt_getD_countWhileLe (g : Nat) :
    ∀ l : List Nat, countWhileLe g l < l.length → g < l.getD (countWhileLe g l) 0
  | [], h => by simp at h
  | o :: rest, h => by
    by_cases ho : o ≤ g
    · simp only [countWhileLe, ho, if_true] at h ⊢
      exact lt_getD_countWhileLe g rest (Nat.lt_of_succ_lt_succ h)
    · simpa [countWhileLe, ho] using Nat.lt_of_not_le ho

theorem countWhileLe_eq_of (g : Nat) :
    ∀ (l : List Nat) (k : Nat), (∀ j, j < k → l.getD j 0 ≤ g) →
      (k = l.length ∨ g < l.getD k 0) → countWhileLe g l = k
  | [], k, _, h2 => by
    rcases h2 with h2 | h2
    · simp [countWhileLe, h2]
    · simp at h2
  | o :: rest, k, h1, h2 => by
    cases k with
    | zero =>
      rcases h2 with h2 | h2
      · simp at h2
      · simp only [List.getD_cons_zero] at h2
        simp [countWhileLe, Nat.not_le.mpr h2]
    | succ k =>
      have ho : o ≤ g := by simpa using h1 0 (Nat.succ_pos k)
      have hrest : countWhileLe g rest = k := by
        refine countWhileLe_eq_of g rest k (fun j hj => ?_) ?_
        · simpa using h1 (j + 1) (Nat.succ_lt_succ hj)
        · rcases h2 with h2 | h2
          · exact Or.inl (Nat.succ_injective h2)
          · exact Or.inr (by simpa using h2)
      simp [countWhileLe, ho, hrest]

theorem getD_mem_of_lt : ∀ (l : List Nat) (j : Nat), j < l.length → l.getD j 0 ∈ l
  | o :: rest, 0, _ => by simp
  | o :: rest, j + 1, h => by
    simpa using Or.inr (getD_mem_of_lt rest j (Nat.lt_of_succ_lt_succ h))

theorem pairwise_getD_mono :
    ∀ (l : List Nat), l.Pairwise (· ≤ ·) → ∀ i j, i ≤ j → j < l.length → l.getD i 0 ≤ l.getD j 0
  | [], _, _, j, _, hj => by simp at hj
  | o :: rest, hp, 0, 0, _, _ => Nat.le_refl _
  | o :: rest, hp, 0, j + 1, _, hj => by
    have hmem : rest.getD j 0 ∈ rest := getD_mem_of_lt rest j (Nat.lt_of_succ_lt_succ hj)
    simpa using (List.pairwise_cons.mp hp).1 _ hmem
  | o :: rest, hp, i + 1, 0, hij, _ => absurd hij (by omega)
  | o :: rest, hp, i + 1, j + 1, hij, hj => by
    simpa using pairwise_getD_mono rest (List.pairwise_cons.mp hp).2 i j
      (Nat.le_of_succ_le_succ hij) (Nat.lt_of_succ_lt_succ hj)

theorem forall_mem_of_getD {p : Cursor → Prop} :
    ∀ l : List Cursor, (∀ j, j < l.length → p (l.getD j default)) → ∀ c ∈ l, p c
  | [], _, c, hc => by simp at hc
  | x :: rest, h, c, hc => by
    rcases List.mem_cons.mp hc with rfl | hc
    · simpa using h 0 (Nat.succ_pos _)
    · exact forall_mem_of_getD rest (fun j hj => by simpa using h (j + 1) (Nat.succ_lt_succ hj)) c hc

/-- The countWhileLe loop never counts past the entry at the current index,
so the subtraction in `get_local_offset` never underflows: the cumulative
start of the current item is at most the global offset. -/
theorem cumulativeAt_index_le (m : Multireader) :
    cumulativeAt m.offsets m.get_current_item_index ≤ m.global_offset := by
  unfold Multireader.get_current_item_index
  by_cases h : countWhileLe m.global_offset m.offsets = 0
  · simp [cumulativeAt, h]
  · unfold cumulativeAt
    rw [if_neg h]
    exact getD_le_of_lt_countWhileLe m.global_offset m.offsets _ (by omega)

/-- `get_local_offset` computes the global offset minus the cumulative start
of the current item. -/
theorem local_offset_eq (m : Multireader) :
    m.get_local_offset = m.global_offset - cumulativeAt m.offsets m.get_current_item_index := by
  unfold Multireader.get_local_offset cumulativeAt
  by_cases h : m.get_current_item_index = 0 <;> simp [h]

/-- `get_bytes_before_current_item` is the cumulative start of the current
item. -/
theorem bytes_before_eq (m : Multireader) :
    m.get_bytes_before_current_item = cumulativeAt m.offsets m.get_current_item_index := by
  unfold Multireader.get_bytes_before_current_item cumulativeAt
  by_cases h : m.get_current_item_index = 0 <;> simp [h]

/-- The cumulative start of the current item is below the global offset when
the index is positive (the `k-1`-th entry was counted). -/
theorem cumulativeAt_le_of_count (l : List Nat) (g : Nat) :
    cumulativeAt l (countWhileLe g l) ≤ g := by
  unfold cumulativeAt
  by_cases hz : countWhileLe g l = 0
  · simp [hz]
  · rw [if_neg hz]
    exact getD_le_of_lt_countWhileLe g l (countWhileLe g l - 1) (by omega)

/-- Re-running the current-item computation at the cumulative start of the
current item gives the same index (the index is stable under seeking to the
start of the current item). -/
theorem countWhileLe_cumulativeAt (l : List Nat) (hp : l.Pairwise (· ≤ ·)) (g : Nat) :
    countWhileLe (cumulativeAt l (countWhileLe g l)) l = countWhileLe g l := by
  refine countWhileLe_eq_of _ l (countWhileLe g l) (fun j hj => ?_) ?_
  · have hkne : countWhileLe g l ≠ 0 := by omega
    have hk1 : countWhileLe g l - 1 < l.length := by
      have := countWhileLe_le_length g l; omega
    have hjk : l.getD j 0 ≤ l.getD (countWhileLe g l - 1) 0 :=
      pairwise_getD_mono l hp j (countWhileLe g l - 1) (by omega) hk1
    have hc : cumulativeAt l (countWhileLe g l) = l.getD (countWhileLe g l - 1) 0 := by
      unfold cumulativeAt; rw [if_neg hkne]
    omega
  · by_cases hlen : countWhileLe g l = l.length
    · exact Or.inl hlen
    · refine Or.inr ?_
      have hklt : countWhileLe g l < l.length :=
        Nat.lt_of_le_of_ne (countWhileLe_le_length g l) hlen
      have h1 : g < l.getD (countWhileLe g l) 0 := lt_getD_countWhileLe g l hklt
      have h2 : cumulativeAt l (countWhileLe g l) ≤ g := cumulativeAt_le_of_count l g
      omega

/-- The cursor each item is left at by the `SeekFrom::Start` repositioning
loops: items before the current index at their end, the current item at the
new local offset, items after it at zero. -/
def reposExpected (idx loc j : Nat) (c : Cursor) : Cursor :=
  if j < idx then { c with pos := c.data.length }
  else if j = idx then { c with pos := loc }
  else { c with pos := 0 }

theorem Cursor.seek_start_ok (c : Cursor) (hc : c.seekFails = false) (o : Nat) :
    c.seek (.start o) = .ok (o, { c with pos := o }) := by
  simp [Cursor.seek, hc]

theorem Cursor.seek_end0_ok (c : Cursor) (hc : c.seekFails = false) :
    c.seek (.fromEnd 0) = .ok (c.data.length, { c with pos := c.data.length }) := by
  have h1 : ¬ ((c.data.length : Int) + 0 < 0) := by omega
  simp [Cursor.seek, hc, h1]

theorem repositionItems_ok (idx loc : Nat) :
    ∀ (items : List Cursor) (i : Nat), (∀ c ∈ items, c.seekFails = false) →
      ∃ items2, repositionItems idx loc i items = .ok items2 ∧
        items2.length = items.length ∧
        ∀ j, j < items.length →
          items2.getD j default = reposExpected idx loc (i + j) (items.getD j default)
  | [], i, _ => ⟨[], rfl, rfl, fun j hj => by simp at hj⟩
  | c :: rest, i, h => by
    have hc : c.seekFails = false := h c (List.mem_cons_self c rest)
    obtain ⟨rest2, hrest, hlen, hspec⟩ :=
      repositionItems_ok idx loc rest (i + 1) (fun x hx => h x (List.mem_cons_of_mem c hx))
    refine ⟨reposExpected idx loc i c :: rest2, ?_, by simpa using hlen, ?_⟩
    · unfold repositionItems
      rcases Nat.lt_trichotomy i idx with hi | hi | hi
      · rw [if_pos hi, Cursor.seek_end0_ok c hc, hrest]
        simp [reposExpected, hi]
      · subst hi
        rw [if_neg (Nat.lt_irrefl i), if_pos rfl, Cursor.seek_start_ok c hc, hrest]
        simp [reposExpected]
      · rw [if_neg (Nat.lt_asymm hi), if_neg (Nat.ne_of_gt hi), Cursor.seek_start_ok c hc, hrest]
        simp [reposExpected, Nat.lt_asymm hi, Nat.ne_of_gt hi]
    · intro j hj
      cases j with
      | zero => simp
      | succ j =>
        have := hspec j (by simpa using Nat.lt_of_succ_lt_succ hj)
        simpa [Nat.add_comm, Nat.add_assoc, Nat.add_left_comm] using this

/-- Full characterisation of the `SeekFrom::Start` arm on healthy sources:
it succeeds, returns the requested offset, stores it as the global offset,
leaves `offsets` alone, and repositions every item as `reposExpected`
describes (with `idx` the recomputed current item index and `loc` the
recomputed local offset). -/
theorem getD_mem_of_lt_cursor : ∀ (l : List Cursor) (j : Nat), j < l.length → l.getD j default ∈ l
  | c :: rest, 0, _ => by simp
  | c :: rest, j + 1, h => by
    simpa using Or.inr (getD_mem_of_lt_cursor rest j (Nat.lt_of_succ_lt_succ h))

/-- `reposExpected` only moves the position; bytes and health are kept. -/
theorem reposExpected_fields (idx loc j : Nat) (c : Cursor) :
    (reposExpected idx loc j c).data = c.data ∧
    (reposExpected idx loc j c).seekFails = c.seekFails := by
  unfold reposExpected
  split
  · exact ⟨rfl, rfl⟩
  · split
    · exact ⟨rfl, rfl⟩
    · exact ⟨rfl, rfl⟩

/-- The `SeekFrom::Start` arm written out: store the offset, recompute index
and local offset, and run the repositioning loop.  Definitional unfolding of
`Multireader.seekStart`. -/
theorem seekStart_eq (m : Multireader) (o : Nat) :
    m.seekStart o =
      match repositionItems (countWhileLe o m.offsets)
          ((⟨m.items, m.offsets, o⟩ : Multireader).get_local_offset) 0 m.items with
      | .error e => .error e
      | .ok items2 => .ok (o, ⟨items2, m.offsets, o⟩) := rfl

/-- Full characterisation of the `SeekFrom::Start` arm on healthy sources:
it succeeds, returns the requested offset, stores it as the global offset,
leaves `offsets` alone, and repositions every item as `reposExpected`
describes (with `idx` the recomputed current item index and `loc` the
recomputed local offset). -/
theorem seekStart_ok (m : Multireader) (hh : ∀ c ∈ m.items, c.seekFails = false) (o : Nat) :
    ∃ m2, m.seek (.start o) = .ok (o, m2) ∧
      m2.offsets = m.offsets ∧
      m2.global_offset = o ∧
      m2.items.length = m.items.length ∧
      (∀ c ∈ m2.items, c.seekFails = false) ∧
      ∀ j, j < m.items.length →
        m2.items.getD j default =
          reposExpected (countWhileLe o m.offsets)
            (o - cumulativeAt m.offsets (countWhileLe o m.offsets)) j (m.items.getD j default) := by
  have hloc : (⟨m.items, m.offsets, o⟩ : Multireader).get_local_offset
      = o - cumulativeAt m.offsets (countWhileLe o m.offsets) := by
    have := local_offset_eq ⟨m.items, m.offsets, o⟩
    simpa [Multireader.get_current_item_index] using this
  obtain ⟨items2, hrep, hlen, hspec⟩ :=
    repositionItems_ok (countWhileLe o m.offsets)
      (o - cumulativeAt m.offsets (countWhileLe o m.offsets)) m.items 0 hh
  have hspec0 : ∀ j, j < m.items.length →
      items2.getD j default =
        reposExpected (countWhileLe o m.offsets)
          (o - cumulativeAt m.offsets (countWhileLe o m.offsets)) j (m.items.getD j default) := by
    intro j hj
    simpa using hspec j hj
  refine ⟨⟨items2, m.offsets, o⟩, ?_, rfl, rfl, hlen, ?_, hspec0⟩
  · show m.seekStart o = _
    rw [seekStart_eq, hloc, hrep]
  · refine forall_mem_of_getD items2 (fun j hj => ?_)
    have hj2 : j < m.items.length := by omega
    rw [hspec0 j hj2]
    have hbase : (m.items.getD j default).seekFails = false :=
      hh _ (getD_mem_of_lt_cursor m.items j hj2)
    rw [(reposExpected_fields _ _ _ _).2, hbase]

theorem getLast?_getD_eq : ∀ l : List Nat, l.getLast?.getD 0 = l.getD (l.length - 1) 0
  | [] => rfl
  | [_] => rfl
  | x :: y :: rest => by
    have := getLast?_getD_eq (y :: rest)
    simpa [List.getLast?_cons_cons] using this

theorem getLast?_getD_eq_cursor :
    ∀ l : List Cursor, l.getLast?.getD default = l.getD (l.length - 1) default
  | [] => rfl
  | [_] => rfl
  | x :: y :: rest => by
    have := getLast?_getD_eq_cursor (y :: rest)
    simpa [List.getLast?_cons_cons] using this

/-! ### Claims C4, C5, C6, C7, C9 — the Multireader layer -/

/-- Claim C4: over exactly the two byte sources `[01 02 03]` and `[04 05]`,
`read_to_end` yields `[01, 02, 03, 04, 05]` (repeated reads carry the stream
across the seam), after which the global offset is 5, the current item index
is 1 and the local offset is 2. -/
theorem c4_two_sources_seam_read :
    (Multireader.new [⟨[1, 2, 3], 0, false⟩, ⟨[4, 5], 0, false⟩]).map
        (fun m =>
          let p := m.read_to_end
          (p.1, p.2.get_global_offset, p.2.get_current_item_index, p.2.get_local_offset))
      = .ok ([1, 2, 3, 4, 5], 5, 1, 2) := by
  rfl

/-- Claim C7: in every Multireader state the reported local offset equals the
global offset minus the bytes preceding the current item, and a read
returning `m` bytes advances the global offset by exactly `m`. -/
theorem c7_offset_invariants (m : Multireader) :
    m.get_local_offset
        = m.get_global_offset - cumulativeAt m.offsets m.get_current_item_index ∧
    ∀ n, (m.read n).2.get_global_offset = m.get_global_offset + (m.read n).1.length :=
  ⟨local_offset_eq m, fun _ => rfl⟩

/-- Claim C5: `seek(Start(o))` succeeds for every offset `o` (even past the
end), returns `o`, stores `o` as the global offset, positions the new current
item `k` at local offset `o - cumulative[k]`, positions every item before `k`
at its end, and every item after `k` at zero. -/
theorem c5_seek_start_spec (m : Multireader) (hw : m.WF) (o : Nat) :
    ∃ m2, m.seek (.start o) = .ok (o, m2) ∧
      m2.get_global_offset = o ∧
      ((m2.items.getD m2.get_current_item_index default).pos
          = o - cumulativeAt m.offsets m2.get_current_item_index) ∧
      (∀ i, i < m2.get_current_item_index →
        (m2.items.getD i default).pos = (m2.items.getD i default).data.length) ∧
      (∀ i, m2.get_current_item_index < i → i < m2.items.length →
        (m2.items.getD i default).pos = 0) := by
  obtain ⟨hne, hlen, hmono, hh⟩ := hw
  obtain ⟨m2, hseek, hoff, hglob, hlen2, hh2, hspec⟩ := seekStart_ok m hh o
  have hidx : m2.get_current_item_index = countWhileLe o m.offsets := by
    unfold Multireader.get_current_item_index
    rw [hoff, hglob]
  have hklt : countWhileLe o m.offsets < m.items.length := by
    have := countWhileLe_le_length o m.offsets
    omega
  refine ⟨m2, hseek, hglob, ?_, ?_, ?_⟩
  · rw [hidx, hspec _ hklt]
    simp [reposExpected]
  · intro i hi
    rw [hidx] at hi
    have hilt : i < m.items.length := by omega
    rw [hspec _ hilt]
    simp [reposExpected, hi]
  · intro i hi hilen
    rw [hidx] at hi
    rw [hlen2] at hilen
    rw [hspec _ hilen]
    simp [reposExpected, Nat.lt_asymm hi, Nat.ne_of_gt hi]

/-- Witness for C5 at the two-source reader of the spec's scenarios and
offset 4. -/
theorem c5_seek_start_spec_witness :
    ∃ m2, (⟨[⟨[1, 2, 3], 0, false⟩, ⟨[4, 5], 0, false⟩], [3], 0⟩ : Multireader).seek
        (.start 4) = .ok (4, m2) ∧
      m2.get_global_offset = 4 ∧
      ((m2.items.getD m2.get_current_item_index default).pos
          = 4 - cumulativeAt [3] m2.get_current_item_index) ∧
      (∀ i, i < m2.get_current_item_index →
        (m2.items.getD i default).pos = (m2.items.getD i default).data.length) ∧
      (∀ i, m2.get_current_item_index < i → i < m2.items.length →
        (m2.items.getD i default).pos = 0) :=
  c5_seek_start_spec ⟨[⟨[1, 2, 3], 0, false⟩, ⟨[4, 5], 0, false⟩], [3], 0⟩ (by decide) 4

/-- Claim C6 as stated: whenever the global offset equals the cumulative
starting offset of item `k`, the current item index is `k`. -/
def boundaryClaim : Prop :=
  ∀ m : Multireader, m.WF → ∀ k, k < m.items.length →
    m.global_offset = cumulativeAt m.offsets k → m.get_current_item_index = k

/-- Counterexample to C6 as stated: a reachable two-item reader whose first
item is empty.  At global offset 0, which is the cumulative start of item 0,
the current item index is 1, not 0 (every index whose cumulative start equals
the offset loses to the largest one). -/
theorem c6_counterexample :
    ¬ boundaryClaim ∧
      Multireader.new [⟨[], 0, false⟩, ⟨[1], 0, false⟩]
        = .ok ⟨[⟨[], 0, false⟩, ⟨[1], 0, false⟩], [0], 0⟩ := by
  constructor
  · intro h
    have := h ⟨[⟨[], 0, false⟩, ⟨[1], 0, false⟩], [0], 0⟩ (by decide) 0 (by decide) (by decide)
    exact absurd this (by decide)
  · rfl

/-- Claim C6 amended: at a seam boundary `global_offset = cumulative[k]` the
current item is `k` — never `k-1`, the newer item wins — provided item `k` is
the last item or has nonzero recorded size (with zero-size items, the largest
index starting at that boundary wins instead). -/
theorem c6_amended (m : Multireader) (hw : m.WF) (k : Nat) (hk : k < m.items.length)
    (hb : m.global_offset = cumulativeAt m.offsets k)
    (hnz : k = m.items.length - 1 ∨ m.global_offset < m.offsets.getD k 0) :
    m.get_current_item_index = k := by
  obtain ⟨hne, hlen, hmono, hh⟩ := hw
  unfold Multireader.get_current_item_index
  refine countWhileLe_eq_of _ m.offsets k (fun j hj => ?_) ?_
  · have hkne : k ≠ 0 := by omega
    have hk1 : k - 1 < m.offsets.length := by omega
    have hle := pairwise_getD_mono m.offsets hmono j (k - 1) (by omega) hk1
    rw [hb]
    unfold cumulativeAt
    rw [if_neg hkne]
    exact hle
  · rcases hnz with hnz | hnz
    · left; omega
    · right; omega

/-- Witness for the amended C6: the seam of the two-source scenario reader at
global offset 3 (the cumulative start of item 1) has current item 1. -/
theorem c6_amended_witness :
    (⟨[⟨[1, 2, 3], 3, false⟩, ⟨[4, 5], 0, false⟩], [3], 3⟩ : Multireader).get_current_item_index
      = 1 :=
  c6_amended ⟨[⟨[1, 2, 3], 3, false⟩, ⟨[4, 5], 0, false⟩], [3], 3⟩ (by decide) 1 (by decide)
    (by decide) (Or.inl (by decide))

/-- Claim C9: a seek past the total size succeeds and stores the offset
literally, the next read returns zero bytes, and the current item index is a
valid index below the number of items for every value of the global
offset. -/
theorem c9_seek_past_end (m : Multireader) (hw : m.WF) (o : Nat)
    (ho : totalSizePure m < o) :
    ∃ m2, m.seek (.start o) = .ok (o, m2) ∧
      m2.get_global_offset = o ∧
      (∀ n, (m2.read n).1 = []) ∧
      ∀ g, (⟨m.items, m.offsets, g⟩ : Multireader).get_current_item_index < m.items.length := by
  obtain ⟨hne, hlen, hmono, hh⟩ := hw
  obtain ⟨m2, hseek, hoff, hglob, hlen2, hh2, hspec⟩ := seekStart_ok m hh o
  have hpre : m.offsets.getLast?.getD 0 ≤ totalSizePure m := by
    unfold totalSizePure; omega
  have hk : countWhileLe o m.offsets = m.offsets.length := by
    refine countWhileLe_eq_of _ _ _ (fun j hj => ?_) (Or.inl rfl)
    have h1 : m.offsets.getD j 0 ≤ m.offsets.getD (m.offsets.length - 1) 0 :=
      pairwise_getD_mono m.offsets hmono j (m.offsets.length - 1) (by omega) (by omega)
    have h2 : m.offsets.getLast?.getD 0 = m.offsets.getD (m.offsets.length - 1) 0 :=
      getLast?_getD_eq m.offsets
    omega
  have hidx : m2.get_current_item_index = m.offsets.length := by
    unfold Multireader.get_current_item_index
    rw [hoff, hglob, hk]
  have hklt : m.offsets.length < m.items.length := by omega
  -- the position of the last item after the seek is past its end
  have hcum : cumulativeAt m.offsets (countWhileLe o m.offsets) = m.offsets.getLast?.getD 0 := by
    rw [hk]
    unfold cumulativeAt
    by_cases h0 : m.offsets.length = 0
    · rw [if_pos h0]
      have : m.offsets = [] := List.length_eq_zero.mp h0
      simp [this]
    · rw [if_neg h0, getLast?_getD_eq]
  have hlastlen :
      (m.items.getD (m.offsets.length) default).data.length
        = (m.items.getLast?.getD default).data.length := by
    rw [getLast?_getD_eq_cursor]
    have : m.items.length - 1 = m.offsets.length := by omega
    rw [this]
  have hpos : (m2.items.getD m2.get_current_item_index default).pos
      > (m2.items.getD m2.get_current_item_index default).data.length := by
    rw [hidx]
    have hsp := hspec (m.offsets.length) hklt
    rw [hk] at hsp
    rw [hsp]
    unfold reposExpected
    rw [if_neg (Nat.lt_irrefl _), if_pos rfl]
    show o - cumulativeAt m.offsets m.offsets.length
      > (m.items.getD m.offsets.length default).data.length
    have hcum2 : cumulativeAt m.offsets m.offsets.length = m.offsets.getLast?.getD 0 := by
      rw [← hk]; exact hcum
    rw [hcum2, hlastlen]
    unfold totalSizePure at ho
    omega
  refine ⟨m2, hseek, hglob, ?_, ?_⟩
  · intro n
    have hfst : (m2.read n).1
        = ((m2.items.getD m2.get_current_item_index default).data.drop
            (m2.items.getD m2.get_current_item_index default).pos).take n := rfl
    rw [hfst, List.drop_eq_nil_of_le (Nat.le_of_lt hpos)]
    simp
  · intro g
    have := countWhileLe_le_length g m.offsets
    show countWhileLe g m.offsets < m.items.length
    omega

/-- Witness for C9 at the two-source scenario reader and offset 6 (total size
is 5). -/
theorem c9_seek_past_end_witness :
    ∃ m2, (⟨[⟨[1, 2, 3], 0, false⟩, ⟨[4, 5], 0, false⟩], [3], 0⟩ : Multireader).seek
        (.start 6) = .ok (6, m2) ∧
      m2.get_global_offset = 6 ∧
      (∀ n, (m2.read n).1 = []) ∧
      ∀ g, (⟨[⟨[1, 2, 3], 0, false⟩, ⟨[4, 5], 0, false⟩], [3], g⟩ :
          Multireader).get_current_item_index
        < ([⟨[1, 2, 3], 0, false⟩, ⟨[4, 5], 0, false⟩] : List Cursor).length :=
  c9_seek_past_end ⟨[⟨[1, 2, 3], 0, false⟩, ⟨[4, 5], 0, false⟩], [3], 0⟩ (by decide) 6 (by decide)

/-! ### Claim C8 — the persistent-offset round trip -/

theorem findIdxAux_getD_nodup :
    ∀ (l : List Nat) (k : Nat), l.Nodup → k < l.length → findIdxAux (l.getD k 0) l = some k
  | [], k, _, hk => by simp at hk
  | i :: rest, 0, _, _ => by simp [findIdxAux]
  | i :: rest, k + 1, hnd, hk => by
    have hmem : rest.getD k 0 ∈ rest := getD_mem_of_lt rest k (Nat.lt_of_succ_lt_succ hk)
    have hne : ¬ i = rest.getD k 0 := by
      intro he
      exact (List.nodup_cons.mp hnd).1 (he ▸ hmem)
    rw [List.getD_cons_succ]
    unfold findIdxAux
    rw [if_neg hne,
      findIdxAux_getD_nodup rest k (List.nodup_cons.mp hnd).2 (Nat.lt_of_succ_lt_succ hk)]
    rfl

/-- Definitional unfolding of `seek_current_item`. -/
theorem seek_current_item_eq (m : Multireader) (pos : SeekFrom) :
    m.seek_current_item pos
      = match (m.items.getD m.get_current_item_index default).seek pos with
        | .error e => .error e
        | .ok (local_offset, c2) =>
          .ok (local_offset,
            ⟨m.items.set m.get_current_item_index c2, m.offsets,
              (⟨m.items.set m.get_current_item_index c2, m.offsets,
                m.global_offset⟩ : Multireader).get_bytes_before_current_item + local_offset⟩) :=
  rfl

/-- `seek_current_item(Start l)` on a healthy current item: the current item
moves to position `l` and the global offset becomes the cumulative start of
the current item plus `l`. -/
theorem seek_current_item_start_ok (m : Multireader) (l : Nat)
    (hc : (m.items.getD m.get_current_item_index default).seekFails = false) :
    m.seek_current_item (.start l)
      = .ok (l, ⟨m.items.set m.get_current_item_index
                  { m.items.getD m.get_current_item_index default with pos := l },
                 m.offsets,
                 cumulativeAt m.offsets m.get_current_item_index + l⟩) := by
  rw [seek_current_item_eq, Cursor.seek_start_ok _ hc]
  rfl

/-- `seek_to_item_start` is a global seek to the cumulative start of the
named item. -/
theorem seek_to_item_start_eq (m : Multireader) (i : Nat) :
    m.seek_to_item_start i = m.seek (.start (cumulativeAt m.offsets i)) := by
  unfold Multireader.seek_to_item_start cumulativeAt
  by_cases h0 : i = 0 <;> simp [h0]

/-- Definitional unfolding of `seek_persistent` when the inode lookup
succeeds. -/
theorem seek_persistent_eq_of_find (r : InodeAwareReader) (ino off i : Nat)
    (hfind : findIdxAux ino r.inodes = some i) :
    r.seek_persistent ⟨ino, off⟩
      = (match r.inner.seek_by_local_index i (.start off) with
         | .error e => .error e
         | .ok (_, inner2) => .ok { r with inner := inner2 } :
           Except Unit InodeAwareReader) := by
  simp only [InodeAwareReader.seek_persistent, InodeAwareReader.get_item_index_by_inode, hfind]

/-- Definitional unfolding of `seek_by_local_index` when the first seek
succeeds. -/
theorem seek_by_local_index_eq_of_ok (m : Multireader) (i : Nat) (pos : SeekFrom)
    (v : Nat) (m1 : Multireader) (h1 : m.seek_to_item_start i = .ok (v, m1)) :
    m.seek_by_local_index i pos = m1.seek_current_item pos := by
  unfold Multireader.seek_by_local_index
  rw [h1]

/-- Claim C8 amended: provided the recorded inodes are pairwise distinct (as
they are when the sources are distinct files), seeking to the reader's own
current persistent offset succeeds and restores the same global offset,
current item index, and local offset. -/
theorem c8_amended (r : InodeAwareReader) (hw : r.inner.WF)
    (hlen : r.inodes.length = r.inner.items.length) (hnd : r.inodes.Nodup) :
    ∃ r2, r.seek_persistent r.get_persistent_offset = .ok r2 ∧
      r2.inner.get_global_offset = r.inner.get_global_offset ∧
      r2.inner.get_current_item_index = r.inner.get_current_item_index ∧
      r2.inner.get_local_offset = r.inner.get_local_offset := by
  obtain ⟨hne, hlen2, hmono, hh⟩ := hw
  have hklt : r.inner.get_current_item_index < r.inner.items.length := by
    have := countWhileLe_le_length r.inner.global_offset r.inner.offsets
    show countWhileLe r.inner.global_offset r.inner.offsets < r.inner.items.length
    omega
  have hfind : findIdxAux (r.inodes.getD r.inner.get_current_item_index 0) r.inodes
      = some r.inner.get_current_item_index :=
    findIdxAux_getD_nodup r.inodes _ hnd (by omega)
  -- first phase: seek to the cumulative start of the current item
  obtain ⟨m1, hseek1, hoff1, hglob1, hlen1, hh1, hspec1⟩ :=
    seekStart_ok r.inner hh (cumulativeAt r.inner.offsets r.inner.get_current_item_index)
  have hidx1 : m1.get_current_item_index = r.inner.get_current_item_index := by
    show countWhileLe m1.global_offset m1.offsets = _
    rw [hglob1, hoff1]
    exact countWhileLe_cumulativeAt r.inner.offsets hmono r.inner.global_offset
  have hc1 : (m1.items.getD m1.get_current_item_index default).seekFails = false := by
    rw [hidx1]
    exact hh1 _ (getD_mem_of_lt_cursor m1.items _ (by omega))
  -- second phase: seek the current item to the saved local offset
  have hsci := seek_current_item_start_ok m1 r.inner.get_local_offset hc1
  -- the final state
  set m3 : Multireader := ⟨m1.items.set m1.get_current_item_index
      { m1.items.getD m1.get_current_item_index default with pos := r.inner.get_local_offset },
    m1.offsets,
    cumulativeAt m1.offsets m1.get_current_item_index + r.inner.get_local_offset⟩ with hm3
  -- its global offset is the original one
  have hcle : cumulativeAt r.inner.offsets r.inner.get_current_item_index
      ≤ r.inner.global_offset := cumulativeAt_index_le r.inner
  have hga : m3.global_offset = r.inner.global_offset := by
    rw [hm3]
    show cumulativeAt m1.offsets m1.get_current_item_index + r.inner.get_local_offset
      = r.inner.global_offset
    rw [hoff1, hidx1, local_offset_eq]
    omega
  have hoffs : m3.offsets = r.inner.offsets := hoff1
  have hidx3 : m3.get_current_item_index = r.inner.get_current_item_index := by
    show countWhileLe m3.global_offset m3.offsets = countWhileLe r.inner.global_offset r.inner.offsets
    rw [hga, hoffs]
  have hloc3 : m3.get_local_offset = r.inner.get_local_offset := by
    rw [local_offset_eq, local_offset_eq, hga, hoffs, hidx3]
  refine ⟨{ r with inner := m3 }, ?_, hga, hidx3, hloc3⟩
  -- evaluate seek_persistent along the two phases
  have hgp : r.get_persistent_offset
      = ⟨r.inodes.getD r.inner.get_current_item_index 0, r.inner.get_local_offset⟩ := rfl
  rw [hgp, seek_persistent_eq_of_find r _ _ _ hfind,
    seek_by_local_index_eq_of_ok r.inner r.inner.get_current_item_index _ _ m1
      (by rw [seek_to_item_start_eq]; exact hseek1),
    hsci]

/-- Claim C8 as stated: for every inode-aware reader state (inodes recorded
at construction, one per item), seeking to the current persistent offset is
the identity on the observable position. -/
def roundtripClaim : Prop :=
  ∀ r : InodeAwareReader, r.inner.WF → r.inodes.length = r.inner.items.length →
    ∃ r2, r.seek_persistent r.get_persistent_offset = .ok r2 ∧
      r2.inner.get_global_offset = r.inner.get_global_offset ∧
      r2.inner.get_current_item_index = r.inner.get_current_item_index ∧
      r2.inner.get_local_offset = r.inner.get_local_offset

/-- A reader over two sources that share an inode (two hard links to the same
file make `from_rotated_logs` record the same inode twice), positioned at
global offset 4: item 1, local offset 1. -/
def rDup : InodeAwareReader :=
  ⟨⟨[⟨[1, 2, 3], 3, false⟩, ⟨[4, 5], 1, false⟩], [3], 4⟩, [7, 7]⟩

/-- Where the round trip actually lands `rDup`: global offset 1. -/
def rDupAfter : InodeAwareReader :=
  ⟨⟨[⟨[1, 2, 3], 1, false⟩, ⟨[4, 5], 0, false⟩], [3], 1⟩, [7, 7]⟩

/-- Counterexample to C8 as stated: when two sources share an inode,
`seek_persistent` finds the *first* index with the current inode.  From
global offset 4 (item 1, local offset 1) the round trip lands at global
offset 1 (item 0, local offset 1) instead. -/
theorem c8_counterexample : ¬ roundtripClaim := by
  intro h
  obtain ⟨r2, heq, hg, _, _⟩ := h rDup (by decide) (by decide)
  rw [show rDup.seek_persistent rDup.get_persistent_offset = .ok rDupAfter from rfl] at heq
  cases heq
  exact absurd hg (by decide)

/-- Witness for the amended C8 at the two-source scenario reader, inodes 7
and 9, positioned at global offset 4. -/
theorem c8_amended_witness :
    ∃ r2, (⟨⟨[⟨[1, 2, 3], 3, false⟩, ⟨[4, 5], 1, false⟩], [3], 4⟩,
        [7, 9]⟩ : InodeAwareReader).seek_persistent
        (⟨⟨[⟨[1, 2, 3], 3, false⟩, ⟨[4, 5], 1, false⟩], [3], 4⟩,
          [7, 9]⟩ : InodeAwareReader).get_persistent_offset = .ok r2 ∧
      r2.inner.get_global_offset
        = (⟨[⟨[1, 2, 3], 3, false⟩, ⟨[4, 5], 1, false⟩], [3], 4⟩ : Multireader).get_global_offset ∧
      r2.inner.get_current_item_index
        = (⟨[⟨[1, 2, 3], 3, false⟩, ⟨[4, 5], 1, false⟩], [3],
            4⟩ : Multireader).get_current_item_index ∧
      r2.inner.get_local_offset
        = (⟨[⟨[1, 2, 3], 3, false⟩, ⟨[4, 5], 1, false⟩], [3], 4⟩ : Multireader).get_local_offset :=
  c8_amended ⟨⟨[⟨[1, 2, 3], 3, false⟩, ⟨[4, 5], 1, false⟩], [3], 4⟩, [7, 9]⟩ (by decide)
    (by decide) (by decide)

/-! ### Claims C1, C2, C3, C10 — the TrackedReader layer -/

/-- The first suffix within `depth` whose file carries the saved inode, as
the claimed rotation-resolution search would find it. -/
def firstMatchingSuffix (fs : FileSys) (ino depth : Nat) : Option Nat :=
  ((List.range depth).map (· + 1)).find? fun k => (fs.rotated k).any fun f => f.ino == ino

/-- Claim C1 as stated: with a loaded record whose inode differs from the
live file's, construction searches suffixes `.1 … .D`, opens the first
matching suffix together with the live file (oldest first), and fails with
rotation-resolution exactly when no suffix within depth matches. -/
def rotationSearchClaim (depth : Nat) : Prop :=
  ∀ (fs : FileSys) (st : State) (f : SrcFile), fs.live = some f → f.ino ≠ st.inode →
    (∀ k older, firstMatchingSuffix fs st.inode depth = some k → fs.rotated k = some older →
      open_files fs (some st) = .ok ([older, f], [older.ino, f.ino])) ∧
    (firstMatchingSuffix fs st.inode depth = none →
      open_files fs (some st) = .error .rotationResolution)

/-- A filesystem where the saved inode 12 sits at suffix `.2` while `.1`
holds an unrelated inode 11. -/
def fsDeep : FileSys :=
  { live := some ⟨10, [], false⟩,
    rotated := fun k =>
      if k = 1 then some ⟨11, [], false⟩
      else if k = 2 then some ⟨12, [], false⟩ else none,
    registry := none }

/-- Counterexample to C1 as stated at the spec's default depth 2: the code
consults only suffix `.1`, so it fails with rotation-resolution even though
`.2` carries the saved inode. -/
theorem c1_counterexample : ¬ rotationSearchClaim 2 := by
  intro h
  have h1 := (h fsDeep ⟨0, 12⟩ ⟨10, [], false⟩ rfl (by decide)).1 2 ⟨12, [], false⟩
    (by rfl) (by rfl)
  rw [show open_files fsDeep (some ⟨0, 12⟩) = .error .rotationResolution from rfl] at h1
  exact Except.noConfusion h1

/-- Claim C1 amended: when the live file's inode differs from the saved one,
the constructor consults exactly suffix `.1`.  If `.1` exists with the saved
inode, it is opened together with the live file, oldest first; if `.1` exists
with a different inode, construction fails with rotation-resolution; if `.1`
is missing, construction fails with an I/O error (not rotation-resolution). -/
theorem c1_amended (fs : FileSys) (st : State) (f : SrcFile)
    (hl : fs.live = some f) (hne : ¬ f.ino = st.inode) :
    (fs.rotated 1 = none → open_files fs (some st) = .error .io) ∧
    (∀ older, fs.rotated 1 = some older →
      (older.ino = st.inode →
        open_files fs (some st) = .ok ([older, f], [older.ino, f.ino])) ∧
      (¬ older.ino = st.inode →
        open_files fs (some st) = .error .rotationResolution)) := by
  refine ⟨fun hrot => ?_, fun older hrot => ⟨fun heq => ?_, fun hneq => ?_⟩⟩
  · simp [open_files, hl, hne, hrot]
  · simp [open_files, hl, hne, hrot, heq]
  · simp [open_files, hl, hne, hrot, hneq]

/-- A filesystem with one rotated file `.1` carrying the saved inode 12. -/
def fsOne : FileSys :=
  { live := some ⟨10, [65], false⟩,
    rotated := fun k => if k = 1 then some ⟨12, [66], false⟩ else none,
    registry := none }

/-- Witness for the amended C1: inode 12 found at `.1` opens both files,
oldest first. -/
theorem c1_amended_witness :
    open_files fsOne (some ⟨0, 12⟩)
      = .ok ([⟨12, [66], false⟩, ⟨10, [65], false⟩], [12, 10]) :=
  ((c1_amended fsOne ⟨0, 12⟩ ⟨10, [65], false⟩ rfl (by decide)).2
    ⟨12, [66], false⟩ (by rfl)).1 rfl

/-- Claim C2 (code bug): on a reader whose registry writes fail, `close`
first hits the persist failure; the `?` operator propagates the error, but
`self` is dropped with `already_freed` still unset, so the `Drop` impl
re-persists, fails again, and the `unwrap` panics — the process terminates
instead of the caller receiving the error. -/
theorem c2_close_panics_on_persist_failure :
    (⟨⟨[⟨[1], 0, false⟩], [], 0⟩, [5], ⟨[], 0, true⟩, false⟩ : TrackedReader).persist
        = .error () ∧
    (TrackedReader.close ⟨⟨[⟨[1], 0, false⟩], [], 0⟩, [5], ⟨[], 0, true⟩, false⟩).1
        = CloseOutcome.panicked :=
  ⟨rfl, rfl⟩

/-- Claim C3 as stated: every failing construction leaves the registry file
exactly as it was (in particular, never creates it). -/
def registryUntouchedClaim : Prop :=
  ∀ (fs : FileSys) (e : TrackedReaderError),
    (TrackedReader.new fs).1 = .error e → (TrackedReader.new fs).2 = fs.registry

/-- A filesystem with no registry and a live file that can be opened but
whose seeks fail (e.g. a FIFO), so size probing fails. -/
def fsProbeFail : FileSys :=
  { live := some ⟨1, [], true⟩, rotated := fun _ => none, registry := none }

/-- Counterexample to C3 as stated: size probing happens *after* the registry
is opened, so a probe failure aborts construction with the registry file
already created (empty). -/
theorem c3_counterexample : ¬ registryUntouchedClaim := by
  intro h
  have hcl := h fsProbeFail .io rfl
  rw [show (TrackedReader.new fsProbeFail).2 = some [] from rfl] at hcl
  exact absurd hcl (by decide)

/-- Reduction of `TrackedReader.new` once the registry load is known. -/
theorem new_eq_of_load (fs : FileSys) (st : Option State)
    (h1 : maybe_read_state fs = .ok st) :
    TrackedReader.new fs
      = (match open_files fs st with
         | .error e => (.error e, fs.registry)
         | .ok (files, inodes) =>
           let reg : RegFile := ⟨fs.registry.getD [], 0, fs.registryWriteFails⟩
           let p := finishNew st inodes reg (Multireader.new (files.map srcToCursor))
           (p.1, some p.2) :
         Except TrackedReaderError TrackedReader × Option (List Nat)) := by
  unfold TrackedReader.new
  rw [h1]

/-- Claim C3 amended: the registry is opened read+write (created if absent)
only after the registry load step and `open_files` both succeed; a failure in
either of those two steps aborts construction with the registry file
untouched.  Once both have succeeded the registry file exists, even when a
later step (size probing, the initial seek, or the initial persist) fails. -/
theorem c3_amended (fs : FileSys) :
    (∀ e, maybe_read_state fs = .error e → TrackedReader.new fs = (.error e, fs.registry)) ∧
    (∀ st e, maybe_read_state fs = .ok st → open_files fs st = .error e →
      TrackedReader.new fs = (.error e, fs.registry)) ∧
    (∀ st files inodes, maybe_read_state fs = .ok st → open_files fs st = .ok (files, inodes) →
      ∃ c, (TrackedReader.new fs).2 = some c) := by
  refine ⟨fun e he => ?_, fun st e h1 h2 => ?_, fun st files inodes h1 h2 => ?_⟩
  · unfold TrackedReader.new
    rw [he]
  · rw [new_eq_of_load fs st h1, h2]
  · rw [new_eq_of_load fs st h1, h2]
    exact ⟨_, rfl⟩

/-- A filesystem whose registry holds the record `(offset 0, inode 5)` but
where the live file has inode 6 and `.1` is missing: loading succeeds,
`open_files` fails. -/
def fsLoadedNoRot : FileSys :=
  { live := some ⟨6, [], false⟩, rotated := fun _ => none,
    registry := some (encodeState ⟨0, 5⟩) }

/-- Witness for the amended C3: when `open_files` fails the construction
returns that error and the registry file keeps its previous content. -/
theorem c3_amended_witness :
    TrackedReader.new fsLoadedNoRot = (.error .io, some (encodeState ⟨0, 5⟩)) :=
  (c3_amended fsLoadedNoRot).2.1 (some ⟨0, 5⟩) .io (by rfl) (by rfl)

/-- Claim C10: a successful `persist` writes the current record at the start
of the registry file (trailing bytes retained) and leaves the whole reading
position — global offset, current item index, local offset, and every
underlying source — unchanged. -/
theorem c10_persist_frame (r r2 : TrackedReader) (h : r.persist = .ok r2) :
    r2.inner.get_global_offset = r.inner.get_global_offset ∧
    r2.inner.get_current_item_index = r.inner.get_current_item_index ∧
    r2.inner.get_local_offset = r.inner.get_local_offset ∧
    r2.inner.items = r.inner.items ∧
    r2.registry.bytes = encodeState r.get_persistent_state ++ r.registry.bytes.drop 16 := by
  by_cases hw : r.registry.writeFails
  · exfalso
    have herr : r.persist = .error () := by
      unfold TrackedReader.persist State.persist
      rw [if_pos hw]
    rw [herr] at h
    exact Except.noConfusion h
  · have hok : r.persist = .ok { r with registry :=
        { bytes := encodeState r.get_persistent_state ++ r.registry.bytes.drop 16,
          pos := 16, writeFails := r.registry.writeFails } } := by
      unfold TrackedReader.persist State.persist
      rw [if_neg hw]
    rw [hok] at h
    cases h
    exact ⟨rfl, rfl, rfl, rfl, rfl⟩

/-- A single-source tracked reader positioned at global offset 1 with an
empty, writable registry. -/
def rPer : TrackedReader :=
  ⟨⟨[⟨[1, 2], 1, false⟩], [], 1⟩, [9], ⟨[], 0, false⟩, false⟩

/-- `rPer` after a persist: only the registry changed. -/
def rPerAfter : TrackedReader :=
  ⟨⟨[⟨[1, 2], 1, false⟩], [], 1⟩, [9], ⟨encodeState ⟨1, 9⟩, 16, false⟩, false⟩

/-- Witness for C10 at `rPer`. -/
theorem c10_persist_frame_witness :
    rPerAfter.inner.get_global_offset = rPer.inner.get_global_offset ∧
    rPerAfter.inner.get_current_item_index = rPer.inner.get_current_item_index ∧
    rPerAfter.inner.get_local_offset = rPer.inner.get_local_offset ∧
    rPerAfter.inner.items = rPer.inner.items ∧
    rPerAfter.registry.bytes
      = encodeState rPer.get_persistent_state ++ rPer.registry.bytes.drop 16 :=
  c10_persist_frame rPer rPerAfter (by rfl)

end Filetrack
